import Mathlib

/-!
Shallow embedding of the tomyl/xui toolkit core (src/xui.go, src/widget.go):
the scroll/selection engine (`MoveLines`, `ScrollWidget`, `ListWidget`),
the action dispatch and error values, the padding utility (`Pad`,
`StringWidth`, escape-sequence stripping), and the prompt editor state
machine (`PromptEditor`).

Go `int` values are modelled as `Int`.  Strings that are only ever
inspected rune by rune are modelled as `List Char`.  The gocui view is an
external collaborator of this repository; the small fragment of its state
and operations that the xui code reads and writes (origin, cursor, size,
`SetOrigin`, `SetCursor`, and the line-editing primitives) is modelled
explicitly below, following gocui's documented behaviour.
-/

/-- Model of Go error values used by this package.  `errAction cause`
models `ErrAction{err: cause}` from src/xui.go (the `viewname`/`action`
fields are only filled in by the out-of-scope dispatcher); `invalidPoint`
models `gocui.ErrInvalidPoint` returned by the view's `SetOrigin` /
`SetCursor`. -/
inductive GoError where
  | errAction (cause : Option String)
  | invalidPoint
deriving Repr, DecidableEq

/-- `Error` from src/xui.go: builds a widget action error with a cause. -/
def Error (msg : String) : GoError := GoError.errAction (some msg)

/-- `UnknownAction` from src/xui.go: an action error with `err: nil`
(no underlying cause). -/
def UnknownAction : GoError := GoError.errAction none

/-- The cause carried by an action error, if any. -/
def GoError.cause : GoError → Option String
  | GoError.errAction c => c
  | GoError.invalidPoint => none

/-- Model of the external `gocui.View` scroll state: origin `(ox, oy)`,
cursor `(cx, cy)` and size `(sx, sy)`, all Go ints. -/
structure View where
  ox : Int
  oy : Int
  cx : Int
  cy : Int
  sx : Int
  sy : Int
deriving Repr, DecidableEq

/-- Model of `gocui.View.SetOrigin`: rejects negative coordinates with
`ErrInvalidPoint`, otherwise updates the origin. -/
def View.setOrigin (v : View) (x y : Int) : View × Option GoError :=
  if x < 0 ∨ y < 0 then (v, some GoError.invalidPoint)
  else ({ v with ox := x, oy := y }, none)

/-- Model of `gocui.View.SetCursor`: rejects coordinates outside
`[0, sx) × [0, sy)` with `ErrInvalidPoint`, otherwise updates the cursor. -/
def View.setCursor (v : View) (x y : Int) : View × Option GoError :=
  if x < 0 ∨ v.sx ≤ x ∨ y < 0 ∨ v.sy ≤ y then (v, some GoError.invalidPoint)
  else ({ v with cx := x, cy := y }, none)

/-- `minInt` from src/xui.go. -/
def minInt (x y : Int) : Int := if x < y then x else y

/-- `maxInt` from src/xui.go. -/
def maxInt (x y : Int) : Int := if x > y then x else y

/-- `GetLine` from src/widget.go: the selected absolute line of a view
(`origin y + cursor y`), or 0 when no view is bound. -/
def getLine (view : Option View) : Int :=
  match view with
  | some v => v.oy + v.cy
  | none => 0

/-- The trailing `if delta != 0 { ... SetCursor(cx, cy+delta) }` step of
`MoveLines` (src/widget.go lines 307-311): `cx` and `cy` are the cursor
coordinates read before any origin mutation. -/
def finishCursor (v : View) (cx cy delta : Int) : Option View × Option GoError :=
  if delta ≠ 0 then
    match v.setCursor cx (cy + delta) with
    | (v', some err) => (some v', some err)
    | (v', none) => (some v', none)
  else (some v, none)

/-- The surface-mutation half of `MoveLines` (src/widget.go lines 281-312):
the `if view != nil && delta != 0` block that splits an already-clamped
delta between an origin shift and a cursor shift. -/
def applyMove (v : View) (max delta : Int) : Option View × Option GoError :=
  if delta ≠ 0 then
    let sy := v.sy
    let oy := v.oy
    let cx := v.cx
    let cy := v.cy
    if delta < 0 then
      if cy + delta < 0 then
        let odelta := maxInt delta (-oy)
        match v.setOrigin v.ox (oy + odelta) with
        | (v', some err) => (some v', some err)
        | (v', none) => finishCursor v' cx cy (delta - odelta)
      else finishCursor v cx cy delta
    else
      if cy + delta ≥ sy then
        let my := max - sy
        if oy < my then
          let odelta := minInt delta (my - oy)
          match v.setOrigin v.ox (oy + odelta) with
          | (v', some err) => (some v', some err)
          | (v', none) => finishCursor v' cx cy (delta - odelta)
        else finishCursor v cx cy delta
      else finishCursor v cx cy delta
  else (some v, none)

/-- `MoveLines` from src/widget.go: changes the selected line of a view by
`delta`, clamping at the top and bottom bounds, failing with
`Error "at top"` / `Error "at bottom"` at a hard boundary, and returning
the possibly-mutated view together with the Go error value. -/
def moveLines (view : Option View) (current max delta : Int) :
    Option View × Option GoError :=
  match view with
  | none => (none, none)
  | some v =>
    if delta < 0 then
      if current ≤ 0 then (some v, some (Error "at top"))
      else
        let delta := if current + delta < 0 then -current else delta
        applyMove v max delta
    else
      let fromBottom := max - current
      let delta := if fromBottom > 0 ∧ delta > fromBottom then fromBottom else delta
      if current + 1 ≥ max then (some v, some (Error "at bottom"))
      else
        let delta := if current + delta ≥ max then max - current - 1 else delta
        applyMove v max delta

/-- `ScrollWidget` from src/widget.go: a bound view (possibly nil), the
line bound `max` and the selected line `current`. -/
structure ScrollWidget where
  view : Option View
  max : Int
  current : Int
deriving Repr, DecidableEq

/-- `ScrollWidget.Current`. -/
def ScrollWidget.Current (w : ScrollWidget) : Int := w.current

/-- `ScrollWidget.SetCurrent`: moves by `idx - current` and reads the
selected line back from the view. -/
def ScrollWidget.setCurrent (w : ScrollWidget) (idx : Int) :
    ScrollWidget × Option GoError :=
  match moveLines w.view w.current w.max (idx - w.current) with
  | (view', err) => ({ w with view := view', current := getLine view' }, err)

/-- `ScrollWidget.clampCurrent` (the error of the inner `SetCurrent` call
is discarded, as in the source). -/
def ScrollWidget.clampCurrent (w : ScrollWidget) : ScrollWidget :=
  if w.current < 0 then { w with current := 0 }
  else if w.current > 0 ∧ w.current ≥ w.max then (w.setCurrent (w.max - 1)).1
  else w

/-- `ScrollWidget.SetMax`: updates the bound and clamps the selection. -/
def ScrollWidget.setMax (w : ScrollWidget) (max : Int) : ScrollWidget :=
  ScrollWidget.clampCurrent { w with max := max }

/-- `ScrollWidget.PreviousLine`. -/
def ScrollWidget.previousLine (w : ScrollWidget) : ScrollWidget × Option GoError :=
  match moveLines w.view w.current w.max (-1) with
  | (view', err) => ({ w with view := view', current := getLine view' }, err)

/-- `ScrollWidget.NextLine`. -/
def ScrollWidget.nextLine (w : ScrollWidget) : ScrollWidget × Option GoError :=
  match moveLines w.view w.current w.max 1 with
  | (view', err) => ({ w with view := view', current := getLine view' }, err)

/-- `ScrollWidget.NextPage`: moves by the view height; returns nil and
leaves the widget untouched when no view is bound. -/
def ScrollWidget.nextPage (w : ScrollWidget) : ScrollWidget × Option GoError :=
  match w.view with
  | some v =>
    match moveLines (some v) w.current w.max v.sy with
    | (view', err) => ({ w with view := view', current := getLine view' }, err)
  | none => (w, none)

/-- `ScrollWidget.PreviousPage`: moves by minus the view height; returns
nil and leaves the widget untouched when no view is bound. -/
def ScrollWidget.previousPage (w : ScrollWidget) : ScrollWidget × Option GoError :=
  match w.view with
  | some v =>
    match moveLines (some v) w.current w.max (-v.sy) with
    | (view', err) => ({ w with view := view', current := getLine view' }, err)
  | none => (w, none)

/-- Action name constants from src/xui.go. -/
def ActionNextLine : String := "next_line"

/-- Action name constant `ActionNextPage`. -/
def ActionNextPage : String := "next_page"

/-- Action name constant `ActionPreviousLine`. -/
def ActionPreviousLine : String := "prev_line"

/-- Action name constant `ActionPreviousPage`. -/
def ActionPreviousPage : String := "prev_page"

/-- `ScrollWidget.HandleAction` from src/widget.go. -/
def ScrollWidget.handleAction (w : ScrollWidget) (action : String) :
    ScrollWidget × Option GoError :=
  if action = ActionNextLine then w.nextLine
  else if action = ActionNextPage then w.nextPage
  else if action = ActionPreviousLine then w.previousLine
  else if action = ActionPreviousPage then w.previousPage
  else (w, some UnknownAction)

/-- `ListWidget` from src/widget.go (the rendering fields irrelevant to
the claims are omitted; `base` and `model` are kept). -/
structure ListWidget where
  base : ScrollWidget
  model : List String
deriving Repr, DecidableEq

/-- `ListWidget.HandleAction`: delegates to the embedded `ScrollWidget`. -/
def ListWidget.handleAction (w : ListWidget) (action : String) :
    ListWidget × Option GoError :=
  match w.base.handleAction action with
  | (b, err) => ({ w with base := b }, err)

/-- One step operation of the scroll engine, for stating properties of
call sequences. -/
inductive StepOp where
  | nextLine
  | previousLine
  | nextPage
  | previousPage
deriving Repr, DecidableEq

/-- Apply one step operation, keeping the widget (the error is returned to
the caller and does not affect subsequent state). -/
def applyStep (w : ScrollWidget) (op : StepOp) : ScrollWidget :=
  match op with
  | StepOp.nextLine => w.nextLine.1
  | StepOp.previousLine => w.previousLine.1
  | StepOp.nextPage => w.nextPage.1
  | StepOp.previousPage => w.previousPage.1

/-- Run a finite sequence of step operations. -/
def runSteps (w : ScrollWidget) (ops : List StepOp) : ScrollWidget :=
  ops.foldl applyStep w

/-- Parameter byte of a CSI sequence: the `[0-?]` class (0x30-0x3f) of the
pattern in src/xui.go's `reStripEscapeSeq`. -/
def isEscParam (c : Char) : Bool := 0x30 ≤ c.toNat ∧ c.toNat ≤ 0x3f

/-- Intermediate byte of a CSI sequence: the class from 0x20 to 0x2f
(space through slash) of the pattern. -/
def isEscInter (c : Char) : Bool := 0x20 ≤ c.toNat ∧ c.toNat ≤ 0x2f

/-- Final byte of a CSI sequence: the `[@-~]` class (0x40-0x7e). -/
def isEscFinal (c : Char) : Bool := 0x40 ≤ c.toNat ∧ c.toNat ≤ 0x7e

/-- Try to match the part of `reStripEscapeSeq` after the leading ESC:
a literal `[`, a maximal run of parameter bytes, a maximal run of
intermediate bytes, then one final byte.  The three character classes are
disjoint, so the greedy scan is exactly the regex match.  Returns the
rest of the input after the match. -/
def matchCSI (l : List Char) : Option (List Char) :=
  match l with
  | [] => none
  | c :: rest =>
    if c = '[' then
      match (rest.dropWhile isEscParam).dropWhile isEscInter with
      | [] => none
      | f :: r3 => if isEscFinal f then some r3 else none
    else none

/-- Fuelled scanner for `reStripEscapeSeq.ReplaceAllString(s, "")`:
removes every leftmost non-overlapping match of the CSI pattern of
src/xui.go line 25 (ESC, a bracket, parameter bytes, intermediate bytes,
one final byte).  One unit of fuel is spent per input position, so
`l.length` fuel always suffices. -/
def stripEscapeSeqFuel : Nat → List Char → List Char
  | 0, l => l
  | _ + 1, [] => []
  | fuel + 1, c :: rest =>
    if c = '\x1b' then
      match matchCSI rest with
      | some rest' => stripEscapeSeqFuel fuel rest'
      | none => c :: stripEscapeSeqFuel fuel rest
    else c :: stripEscapeSeqFuel fuel rest

/-- `reStripEscapeSeq.ReplaceAllString(s, "")` as used by `Pad`. -/
def stripEscapeSeq (l : List Char) : List Char :=
  stripEscapeSeqFuel l.length l

/-- Model of the external go-runewidth `RuneWidth` for the character
range used in this development (below U+00A1): control characters have
width 0, printable characters width 1; none are double-width. -/
def runeWidth (c : Char) : Nat :=
  if c.toNat < 0x20 ∨ c.toNat = 0x7f then 0 else 1

/-- Model of go-runewidth `IsAmbiguousWidth` on the same range: no
character below U+00A1 is ambiguous-width. -/
def isAmbiguousWidth (_ : Char) : Bool := false

/-- `StringWidth` from src/xui.go: per-rune width sum where width 0, or
width 2 on an ambiguous-width rune, is counted as 1. -/
def StringWidth (s : List Char) : Nat :=
  s.foldl
    (fun w ch =>
      let rw := runeWidth ch
      let rw := if rw = 0 ∨ rw = 2 ∧ isAmbiguousWidth ch then 1 else rw
      w + rw)
    0

/-- `Pad` from src/xui.go: strips escape sequences, measures the stripped
width, and appends `n - w` spaces to the original string when `w < n`;
otherwise returns the string unchanged. -/
def Pad (s : List Char) (n : Int) : List Char :=
  let ss := stripEscapeSeq s
  let w := StringWidth ss
  if (w : Int) < n then s ++ List.replicate (n - w).toNat ' ' else s

/-- Model of the gocui view fragment touched by the prompt editor: the
single edited line and the cursor column. -/
structure EditView where
  line : List Char
  cx : Nat
deriving Repr, DecidableEq

/-- Model of `gocui.View.EditWrite`: insert a rune at the cursor and
advance the cursor. -/
def EditView.editWrite (v : EditView) (ch : Char) : EditView :=
  { line := v.line.insertIdx v.cx ch, cx := v.cx + 1 }

/-- Model of `gocui.View.EditDelete`: with `back` delete the rune before
the cursor and move the cursor left (no-op at column 0); without `back`
delete the rune under the cursor. -/
def EditView.editDelete (v : EditView) (back : Bool) : EditView :=
  if back then
    if v.cx > 0 then { line := v.line.eraseIdx (v.cx - 1), cx := v.cx - 1 }
    else v
  else { v with line := v.line.eraseIdx v.cx }

/-- Model of `gocui.View.MoveCursor` restricted to horizontal moves on a
single line: the column moves by `dx`, never below 0. -/
def EditView.moveCursor (v : EditView) (dx : Int) : EditView :=
  { v with cx := ((v.cx : Int) + dx).toNat }

/-- Model of `gocui.View.Buffer`: the buffer contents with a trailing
newline. -/
def EditView.buffer (v : EditView) : List Char := v.line ++ ['\n']

/-- `getFirstLine` from src/widget.go: everything before the first
newline (the whole string when there is none). -/
def getFirstLine (s : List Char) : List Char :=
  s.takeWhile (fun c => c ≠ '\n')

/-- Model of Go `unicode.IsSpace` on the ASCII range (all inputs in this
development are ASCII): space, tab, newline, vertical tab, form feed,
carriage return. -/
def isSpaceGo (c : Char) : Bool :=
  c = ' ' ∨ c = '\t' ∨ c = '\n' ∨ c = '\x0b' ∨ c = '\x0c' ∨ c = '\r'

/-- Model of Go `strings.TrimSpace` on ASCII input: drop whitespace from
both ends. -/
def trimSpace (s : List Char) : List Char :=
  ((s.dropWhile isSpaceGo).reverse.dropWhile isSpaceGo).reverse

/-- Model of the gocui key codes named by the prompt editor, plus `null`
(the zero key accompanying a plain rune event) and `other` for every
remaining key code. -/
inductive XKey where
  | null
  | space
  | backspace
  | backspace2
  | delete
  | insert
  | enter
  | esc
  | ctrlG
  | arrowDown
  | arrowUp
  | arrowLeft
  | arrowRight
  | other (code : Nat)
deriving Repr, DecidableEq

/-- A raw key event as delivered to a gocui editor: key code, rune
(`'\x00'` when the event is a special key) and modifier (0 = none). -/
structure KeyEvent where
  key : XKey
  ch : Char
  mod : Nat
deriving Repr, DecidableEq

/-- Result of one prompt editor step: the mutated view, the `consumed`
flag returned to gocui, and the completion callback invocation, if any,
carrying `(committed, text)`. -/
structure PromptResult where
  view : EditView
  consumed : Bool
  callback : Option (Bool × List Char)
deriving Repr, DecidableEq

/-- The editor function built by `PromptEditor` (src/widget.go lines
318-371), as a pure step: `offset` is the length of the immutable leading
text.  Mirrors the Go switch case by case, including the commented-out
Insert/ArrowDown/ArrowUp cases that consume the event without effect,
and the final commit/cancel block that trims the first buffer line,
clamps `offset` to its length and fires the callback. -/
def promptEditor (offset : Nat) (v : EditView) (e : KeyEvent) : PromptResult :=
  let cx := v.cx
  let step : EditView × Bool × Bool × Bool :=
    if e.ch ≠ '\x00' ∧ e.mod = 0 then (v.editWrite e.ch, false, false, true)
    else if e.key = XKey.space then (v.editWrite ' ', false, false, true)
    else if e.key = XKey.backspace ∨ e.key = XKey.backspace2 then
      if cx > offset then (v.editDelete true, false, false, true)
      else (v, true, false, true)
    else if e.key = XKey.delete then (v.editDelete false, false, false, true)
    else if e.key = XKey.insert then (v, false, false, true)
    else if e.key = XKey.enter then (v, false, true, true)
    else if e.key = XKey.esc ∨ e.key = XKey.ctrlG then (v, true, false, true)
    else if e.key = XKey.arrowDown then (v, false, false, true)
    else if e.key = XKey.arrowUp then (v, false, false, true)
    else if e.key = XKey.arrowLeft then
      if cx > offset then (v.moveCursor (-1), false, false, true)
      else (v, false, false, true)
    else if e.key = XKey.arrowRight then (v.moveCursor 1, false, false, true)
    else (v, false, false, false)
  match step with
  | (v', cancel, done, consumed) =>
    if done ∨ cancel then
      let content := trimSpace (getFirstLine v'.buffer)
      let offset := if offset > content.length then content.length else offset
      { view := v', consumed := consumed, callback := some (done, content.drop offset) }
    else { view := v', consumed := consumed, callback := none }

/-- A plain rune key event (typing a printable character). -/
def charEvent (c : Char) : KeyEvent := { key := XKey.null, ch := c, mod := 0 }

/-- A special-key event with no rune and no modifier. -/
def keyEvent (k : XKey) : KeyEvent := { key := k, ch := '\x00', mod := 0 }

/-- Feed a sequence of key events to the prompt editor, threading the
view; returns the final view and the callback fired by the last event,
if any. -/
def runPromptEvents (offset : Nat) (v : EditView) (es : List KeyEvent) :
    EditView × Option (Bool × List Char) :=
  es.foldl
    (fun st e =>
      let r := promptEditor offset st.1 e
      (r.view, r.callback))
    (v, none)

/-- The downward-movement check sequence exactly as the spec states it
(spec section 4.1 step 2): clamp the delta to `fromBottom` first, then
fail at the bottom boundary, then clamp to `max - c - 1`. -/
def specDownwardChecks (c max d : Int) : Except GoError Int :=
  let fromBottom := max - c
  let d1 := if fromBottom > 0 ∧ d > fromBottom then fromBottom else d
  if c + 1 ≥ max then Except.error (Error "at bottom")
  else
    let d2 := if c + d1 ≥ max then max - c - 1 else d1
    Except.ok d2

/-- View state reachable by the scroll engine: nonnegative origin and
cursor rows, cursor row inside the window (or pinned at 0 for a
degenerate window). -/
def wfView (v : View) : Prop :=
  0 ≤ v.oy ∧ 0 ≤ v.cy ∧ (v.cy < v.sy ∨ v.cy = 0)

/-- Fully well-formed view: `wfView` plus nonnegative column state with
the cursor column inside the window, as gocui maintains for a live view. -/
def wfViewFull (v : View) : Prop :=
  0 ≤ v.ox ∧ 0 ≤ v.cx ∧ v.cx < v.sx ∧ wfView v

/-- Invariant of a properly initialised `ScrollWidget`: the selection is
in bounds and agrees with the bound view's reported line.  A freshly
bound widget (selection 0, view origin and cursor row 0) satisfies it. -/
def ScrollInv (w : ScrollWidget) : Prop :=
  0 ≤ w.current ∧ (0 < w.max → w.current < w.max) ∧ (w.max ≤ 0 → w.current = 0) ∧
  ∀ v, w.view = some v → wfView v ∧ w.current = v.oy + v.cy

theorem finishCursor_wf (v : View) (cx cy delta : Int) (hcy : v.cy = cy) :
    ∃ v', (finishCursor v cx cy delta).1 = some v' ∧
      v'.sy = v.sy ∧ v'.oy = v.oy ∧
      (v'.cy = cy ∨ (v'.cy = cy + delta ∧ 0 ≤ v'.cy ∧ v'.cy < v.sy)) := by
  unfold finishCursor View.setCursor
  by_cases h : delta = 0
  · exact ⟨v, by simp [h], rfl, rfl, Or.inl hcy⟩
  · by_cases hc : cx < 0 ∨ v.sx ≤ cx ∨ cy + delta < 0 ∨ v.sy ≤ cy + delta
    · refine ⟨v, ?_, rfl, rfl, Or.inl hcy⟩
      simp [h, hc]
    · refine ⟨{ v with cx := cx, cy := cy + delta }, ?_, rfl, rfl, ?_⟩
      · simp [h, hc]
      · push_neg at hc
        exact Or.inr ⟨rfl, show 0 ≤ cy + delta by omega, show cy + delta < v.sy by omega⟩

theorem maxInt_spec (x y : Int) :
    (maxInt x y = x ∨ maxInt x y = y) ∧ x ≤ maxInt x y ∧ y ≤ maxInt x y := by
  unfold maxInt
  split <;> omega

theorem minInt_spec (x y : Int) :
    (minInt x y = x ∨ minInt x y = y) ∧ minInt x y ≤ x ∧ minInt x y ≤ y := by
  unfold minInt
  split <;> omega

theorem setOrigin_cases (v : View) (x y : Int) :
    (v.setOrigin x y = (v, some GoError.invalidPoint) ∧ (x < 0 ∨ y < 0)) ∨
    (v.setOrigin x y = ({ v with ox := x, oy := y }, none) ∧ 0 ≤ x ∧ 0 ≤ y) := by
  unfold View.setOrigin
  by_cases h : x < 0 ∨ y < 0
  · exact Or.inl ⟨by simp [h], h⟩
  · push_neg at h
    refine Or.inr ⟨?_, h.1, h.2⟩
    rw [if_neg (by omega)]

theorem applyMove_wf (v : View) (max delta : Int)
    (h1 : 0 ≤ v.oy) (h2 : 0 ≤ v.cy) (h3 : v.cy < v.sy ∨ v.cy = 0) :
    ∃ v', (applyMove v max delta).1 = some v' ∧
      v'.sy = v.sy ∧ 0 ≤ v'.oy ∧ 0 ≤ v'.cy ∧ (v'.cy < v'.sy ∨ v'.cy = 0) ∧
      (0 ≤ delta → v.oy + v.cy ≤ v'.oy + v'.cy ∧ v'.oy + v'.cy ≤ v.oy + v.cy + delta) ∧
      (delta ≤ 0 → v.oy + v.cy + delta ≤ v'.oy + v'.cy ∧ v'.oy + v'.cy ≤ v.oy + v.cy) := by
  unfold applyMove
  by_cases h0 : delta = 0
  · exact ⟨v, by simp [h0], rfl, h1, h2, h3, by omega, by omega⟩
  rw [if_pos h0]
  dsimp only
  by_cases hneg : delta < 0
  · rw [if_pos hneg]
    by_cases hcd : v.cy + delta < 0
    · rw [if_pos hcd]
      obtain ⟨hm1, hm2, hm3⟩ := maxInt_spec delta (-v.oy)
      rcases setOrigin_cases v v.ox (v.oy + maxInt delta (-v.oy)) with ⟨heq, _⟩ | ⟨heq, _, _⟩
      · rw [heq]
        exact ⟨v, rfl, rfl, h1, h2, h3, by omega, by omega⟩
      · rw [heq]
        obtain ⟨v2, hfin, hsy, hoy, hcy⟩ :=
          finishCursor_wf { v with ox := v.ox, oy := v.oy + maxInt delta (-v.oy) }
            v.cx v.cy (delta - maxInt delta (-v.oy)) rfl
        dsimp only at hsy hoy hcy
        refine ⟨v2, hfin, hsy, by omega, ?_, ?_, by omega, ?_⟩
        · rcases hcy with h | ⟨_, h, _⟩ <;> omega
        · rcases hcy with h | ⟨_, _, h⟩
          · rw [hsy]
            rcases h3 with h3 | h3
            · exact Or.inl (by omega)
            · exact Or.inr (by omega)
          · exact Or.inl (by omega)
        · intro _
          rcases hcy with h | ⟨h, _, _⟩ <;> constructor <;> omega
    · rw [if_neg hcd]
      obtain ⟨v2, hfin, hsy, hoy, hcy⟩ := finishCursor_wf v v.cx v.cy delta rfl
      refine ⟨v2, hfin, hsy, by omega, ?_, ?_, by omega, ?_⟩
      · rcases hcy with h | ⟨_, h, _⟩ <;> omega
      · rcases hcy with h | ⟨_, _, h⟩
        · rw [hsy]
          rcases h3 with h3 | h3
          · exact Or.inl (by omega)
          · exact Or.inr (by omega)
        · exact Or.inl (by omega)
      · intro _
        rcases hcy with h | ⟨h, _, _⟩ <;> constructor <;> omega
  · rw [if_neg hneg]
    by_cases hcd : v.cy + delta ≥ v.sy
    · rw [if_pos hcd]
      by_cases hoy : v.oy < max - v.sy
      · rw [if_pos hoy]
        obtain ⟨hm1, hm2, hm3⟩ := minInt_spec delta (max - v.sy - v.oy)
        rcases setOrigin_cases v v.ox (v.oy + minInt delta (max - v.sy - v.oy)) with
          ⟨heq, _⟩ | ⟨heq, _, _⟩
        · rw [heq]
          exact ⟨v, rfl, rfl, h1, h2, h3, by omega, by omega⟩
        · rw [heq]
          obtain ⟨v2, hfin, hsy, hoy2, hcy⟩ :=
            finishCursor_wf { v with ox := v.ox, oy := v.oy + minInt delta (max - v.sy - v.oy) }
              v.cx v.cy (delta - minInt delta (max - v.sy - v.oy)) rfl
          dsimp only at hsy hoy2 hcy
          refine ⟨v2, hfin, hsy, by omega, ?_, ?_, ?_, by omega⟩
          · rcases hcy with h | ⟨_, h, _⟩ <;> omega
          · rcases hcy with h | ⟨_, _, h⟩
            · rw [hsy]
              rcases h3 with h3 | h3
              · exact Or.inl (by omega)
              · exact Or.inr (by omega)
            · exact Or.inl (by omega)
          · intro _
            rcases hcy with h | ⟨h, _, _⟩ <;> constructor <;> omega
      · rw [if_neg hoy]
        obtain ⟨v2, hfin, hsy, hoy2, hcy⟩ := finishCursor_wf v v.cx v.cy delta rfl
        refine ⟨v2, hfin, hsy, by omega, ?_, ?_, ?_, by omega⟩
        · rcases hcy with h | ⟨_, h, _⟩ <;> omega
        · rcases hcy with h | ⟨_, _, h⟩
          · rw [hsy]
            rcases h3 with h3 | h3
            · exact Or.inl (by omega)
            · exact Or.inr (by omega)
          · exact Or.inl (by omega)
        · intro _
          rcases hcy with h | ⟨h, _, _⟩ <;> constructor <;> omega
    · rw [if_neg hcd]
      obtain ⟨v2, hfin, hsy, hoy2, hcy⟩ := finishCursor_wf v v.cx v.cy delta rfl
      refine ⟨v2, hfin, hsy, by omega, ?_, ?_, ?_, by omega⟩
      · rcases hcy with h | ⟨_, h, _⟩ <;> omega
      · rcases hcy with h | ⟨_, _, h⟩
        · rw [hsy]
          rcases h3 with h3 | h3
          · exact Or.inl (by omega)
          · exact Or.inr (by omega)
        · exact Or.inl (by omega)
      · intro _
        rcases hcy with h | ⟨h, _, _⟩ <;> constructor <;> omega

theorem moveLines_wf (v : View) (c max d : Int)
    (hwf : wfView v) (hc : c = v.oy + v.cy)
    (h0 : 0 ≤ c) (hb1 : 0 < max → c < max) (hb2 : max ≤ 0 → c = 0) :
    ∃ v', (moveLines (some v) c max d).1 = some v' ∧ wfView v' ∧
      0 ≤ v'.oy + v'.cy ∧ (0 < max → v'.oy + v'.cy < max) ∧
      (max ≤ 0 → v'.oy + v'.cy = 0) := by
  obtain ⟨hv1, hv2, hv3⟩ := hwf
  unfold moveLines
  dsimp only
  by_cases hd : d < 0
  · rw [if_pos hd]
    by_cases hc0 : c ≤ 0
    · rw [if_pos hc0]
      exact ⟨v, rfl, ⟨hv1, hv2, hv3⟩, by omega, by omega, by omega⟩
    · rw [if_neg hc0]
      set d1 : Int := if c + d < 0 then -c else d with hd1
      have hd1neg : d1 < 0 := by
        rw [hd1]; split <;> omega
      have hd1low : 0 ≤ c + d1 := by
        rw [hd1]; split <;> omega
      obtain ⟨v', hv', hsy, hoy, hcy, hwcy, _, hbnd⟩ := applyMove_wf v max d1 hv1 hv2 hv3
      have := hbnd (by omega)
      exact ⟨v', hv', ⟨hoy, hcy, hwcy⟩, by omega, by omega, by omega⟩
  · rw [if_neg hd]
    by_cases hbot : c + 1 ≥ max
    · rw [if_pos hbot]
      exact ⟨v, rfl, ⟨hv1, hv2, hv3⟩, by omega, by omega, by omega⟩
    · rw [if_neg hbot]
      set d1 : Int := if max - c > 0 ∧ d > max - c then max - c else d with hd1
      set d2 : Int := if c + d1 ≥ max then max - c - 1 else d1 with hd2
      have hd2pos : 0 ≤ d2 := by
        rw [hd2, hd1]; split <;> split <;> omega
      have hd2high : c + d2 < max := by
        rw [hd2]; split <;> omega
      obtain ⟨v', hv', hsy, hoy, hcy, hwcy, hbnd, _⟩ := applyMove_wf v max d2 hv1 hv2 hv3
      have := hbnd (by omega)
      exact ⟨v', hv', ⟨hoy, hcy, hwcy⟩, by omega, by omega, by omega⟩

theorem moveRead_inv (w : ScrollWidget) (hw : ScrollInv w) (d : Int)
    (vv : Option View) (ee : Option GoError)
    (hp : moveLines w.view w.current w.max d = (vv, ee)) :
    ScrollInv { w with view := vv, current := getLine vv } := by
  obtain ⟨h0, h1, h2, h3⟩ := hw
  cases hv : w.view with
  | none =>
    rw [hv] at hp
    have hnone : vv = none := by
      have h' : (moveLines none w.current w.max d).1 = none := rfl
      rw [hp] at h'
      exact h'
    subst hnone
    unfold ScrollInv
    refine ⟨by simp [getLine], ?_, ?_, ?_⟩
    · intro hm
      simp only [getLine]
      simp only [ScrollWidget.max] at hm
      omega
    · intro _
      simp [getLine]
    · intro u hu
      simp at hu
  | some v =>
    obtain ⟨hwf, hcur⟩ := h3 v hv
    rw [hv] at hp
    obtain ⟨v', hsome, hwf', ha, hb, hc2⟩ := moveLines_wf v w.current w.max d hwf hcur h0 h1 h2
    rw [hp] at hsome
    dsimp only at hsome
    subst hsome
    unfold ScrollInv
    refine ⟨by simpa [getLine] using ha, ?_, ?_, ?_⟩
    · intro hm
      simpa [getLine] using hb hm
    · intro hm
      simpa [getLine] using hc2 hm
    · intro u hu
      simp at hu
      subst hu
      exact ⟨hwf', by simp [getLine]⟩

theorem applyStep_inv (w : ScrollWidget) (hw : ScrollInv w) (op : StepOp) :
    ScrollInv (applyStep w op) ∧ (applyStep w op).max = w.max := by
  cases op with
  | nextLine =>
    rcases hp : moveLines w.view w.current w.max 1 with ⟨vv, ee⟩
    have h := moveRead_inv w hw 1 vv ee hp
    unfold applyStep ScrollWidget.nextLine
    rw [hp]
    exact ⟨h, rfl⟩
  | previousLine =>
    rcases hp : moveLines w.view w.current w.max (-1) with ⟨vv, ee⟩
    have h := moveRead_inv w hw (-1) vv ee hp
    unfold applyStep ScrollWidget.previousLine
    rw [hp]
    exact ⟨h, rfl⟩
  | nextPage =>
    unfold applyStep ScrollWidget.nextPage
    cases hv : w.view with
    | none =>
      dsimp only
      exact ⟨hw, rfl⟩
    | some v =>
      rcases hp : moveLines (some v) w.current w.max v.sy with ⟨vv, ee⟩
      have hp' : moveLines w.view w.current w.max v.sy = (vv, ee) := by rw [hv]; exact hp
      have h := moveRead_inv w hw v.sy vv ee hp'
      dsimp only
      rw [hp]
      exact ⟨h, rfl⟩
  | previousPage =>
    unfold applyStep ScrollWidget.previousPage
    cases hv : w.view with
    | none =>
      dsimp only
      exact ⟨hw, rfl⟩
    | some v =>
      rcases hp : moveLines (some v) w.current w.max (-v.sy) with ⟨vv, ee⟩
      have hp' : moveLines w.view w.current w.max (-v.sy) = (vv, ee) := by rw [hv]; exact hp
      have h := moveRead_inv w hw (-v.sy) vv ee hp'
      dsimp only
      rw [hp]
      exact ⟨h, rfl⟩

theorem runSteps_inv (w : ScrollWidget) (hw : ScrollInv w) (ops : List StepOp) :
    ScrollInv (runSteps w ops) ∧ (runSteps w ops).max = w.max := by
  induction ops generalizing w with
  | nil => exact ⟨hw, rfl⟩
  | cons op ops ih =>
    obtain ⟨h1, h2⟩ := applyStep_inv w hw op
    obtain ⟨h3, h4⟩ := ih (applyStep w op) h1
    exact ⟨h3, by rw [runSteps] at h4 ⊢; simp [List.foldl] at h4 ⊢; omega⟩

/-- C2: for every `ScrollWidget` in a properly initialised state (any
bound `max`; selection in bounds and agreeing with the bound view, as
holds for a freshly bound widget) and every finite sequence of
`NextLine`, `PreviousLine`, `NextPage`, `PreviousPage` calls, after each
call `Current()` satisfies `0 ≤ Current() < max` whenever `max > 0`, and
`Current() = 0` whenever `max = 0`. -/
theorem scroll_steps_stay_in_bounds (w : ScrollWidget) (hw : ScrollInv w)
    (ops : List StepOp) :
    (0 < w.max → 0 ≤ (runSteps w ops).Current ∧ (runSteps w ops).Current < w.max) ∧
    (w.max = 0 → (runSteps w ops).Current = 0) := by
  obtain ⟨hinv, hmax⟩ := runSteps_inv w hw ops
  obtain ⟨a, b, c, _⟩ := hinv
  unfold ScrollWidget.Current
  rw [hmax] at b c
  exact ⟨fun hm => ⟨a, b hm⟩, fun hm => c (by omega)⟩

theorem scroll_steps_stay_in_bounds_witness :
    0 ≤ (runSteps ⟨some ⟨0, 0, 0, 0, 10, 5⟩, 7, 0⟩
          [StepOp.nextLine, StepOp.nextPage, StepOp.nextPage, StepOp.previousLine]).Current ∧
    (runSteps ⟨some ⟨0, 0, 0, 0, 10, 5⟩, 7, 0⟩
          [StepOp.nextLine, StepOp.nextPage, StepOp.nextPage, StepOp.previousLine]).Current <
      (⟨some ⟨0, 0, 0, 0, 10, 5⟩, 7, 0⟩ : ScrollWidget).max :=
  (scroll_steps_stay_in_bounds ⟨some ⟨0, 0, 0, 0, 10, 5⟩, 7, 0⟩
    (by
      refine ⟨by decide, by decide, by decide, ?_⟩
      rintro v hv
      rw [Option.some.injEq] at hv
      subst hv
      exact ⟨⟨by decide, by decide, Or.inl (by decide)⟩, by decide⟩)
    [StepOp.nextLine, StepOp.nextPage, StepOp.nextPage, StepOp.previousLine]).1 (by decide)

/-- C1 counterexample: with `max = 1` and `Current() = 0` (so `max > 0`
and `0 ≤ Current() < max`), `SetCurrent(Current())` is not an error-free
no-op: it returns the at-bottom error. -/
theorem setCurrent_self_not_always_ok :
    (ScrollWidget.setCurrent ⟨some ⟨0, 0, 0, 0, 10, 5⟩, 1, 0⟩ 0).2 ≠ none := by
  decide

/-- C1 (amended): with a bound view agreeing with `Current()` and
`0 ≤ Current() < max`, `SetCurrent(Current())` never mutates the surface
and leaves `Current()` unchanged; it returns no error whenever
`Current() < max - 1`, but at `Current() = max - 1` (`max ≤ Current()+1`)
it returns the at-bottom error, because the boundary check fires even for
a zero delta. -/
theorem setCurrent_self_noop (v : View) (max c : Int)
    (hmax : 0 < max) (h0 : 0 ≤ c) (hlt : c < max) (hline : getLine (some v) = c) :
    ScrollWidget.setCurrent ⟨some v, max, c⟩ c =
      (⟨some v, max, c⟩, if max ≤ c + 1 then some (Error "at bottom") else none) := by
  unfold ScrollWidget.setCurrent
  dsimp only
  by_cases hbot : max ≤ c + 1
  · have hml : moveLines (some v) c max (c - c) = (some v, some (Error "at bottom")) := by
      unfold moveLines
      dsimp only
      rw [if_neg (by omega : ¬ (c - c < 0))]
      rw [if_pos (by omega : c + 1 ≥ max)]
    rw [hml]
    dsimp only
    rw [hline, if_pos hbot]
  · have hml : moveLines (some v) c max (c - c) = (some v, none) := by
      unfold moveLines
      dsimp only
      rw [if_neg (by omega : ¬ (c - c < 0))]
      rw [if_neg (by omega : ¬ (c + 1 ≥ max))]
      have h1 : (if max - c > 0 ∧ c - c > max - c then max - c else c - c) = c - c := by
        rw [if_neg (by omega)]
      rw [h1]
      have h2 : (if c + (c - c) ≥ max then max - c - 1 else c - c) = c - c := by
        rw [if_neg (by omega)]
      rw [h2]
      unfold applyMove
      rw [if_neg (by omega : ¬ (c - c ≠ 0))]
    rw [hml]
    dsimp only
    rw [hline, if_neg hbot]

theorem setCurrent_self_noop_witness :
    ScrollWidget.setCurrent ⟨some ⟨0, 2, 0, 1, 10, 5⟩, 9, 3⟩ 3 =
      (⟨some ⟨0, 2, 0, 1, 10, 5⟩, 9, 3⟩,
        if (9:Int) ≤ 3 + 1 then some (Error "at bottom") else none) :=
  setCurrent_self_noop ⟨0, 2, 0, 1, 10, 5⟩ 9 3 (by decide) (by decide) (by decide) (by decide)

/-- C3: for every downward move (`d > 0`), `MoveLines` behaves exactly as
the spec's check sequence: first clamp `d` to `fromBottom = max - c` when
`fromBottom > 0` and `d > fromBottom`, then fail with the at-bottom error
when `c + 1 ≥ max`, then clamp `d` to `max - c - 1` when `c + d ≥ max`,
and only then mutate the surface. -/
theorem moveLines_downward_check_order (v : View) (c max d : Int) (hd : 0 < d) :
    moveLines (some v) c max d =
      match specDownwardChecks c max d with
      | Except.error e => (some v, some e)
      | Except.ok d' => applyMove v max d' := by
  unfold moveLines specDownwardChecks
  dsimp only
  rw [if_neg (by omega : ¬ d < 0)]
  by_cases hbot : c + 1 ≥ max
  · rw [if_pos hbot, if_pos hbot]
  · rw [if_neg hbot, if_neg hbot]

theorem moveLines_downward_check_order_witness :
    moveLines (some ⟨0, 0, 0, 0, 10, 5⟩) 2 4 7 =
      match specDownwardChecks 2 4 7 with
      | Except.error e => (some ⟨0, 0, 0, 0, 10, 5⟩, some e)
      | Except.ok d' => applyMove ⟨0, 0, 0, 0, 10, 5⟩ 4 d' :=
  moveLines_downward_check_order ⟨0, 0, 0, 0, 10, 5⟩ 2 4 7 (by decide)

/-- C4: with a bound view that agrees with `Current()` and `max > 0`,
`PreviousLine` at `current = 0` fails with the at-top error and
`NextLine` at `current = max - 1` fails with the at-bottom error; in both
cases the view is returned untouched (no `SetOrigin` or `SetCursor` was
issued) and `Current()` is unchanged. -/
theorem boundary_moves_fail (v : View) (max : Int) (hmax : 0 < max) :
    (getLine (some v) = 0 →
      ScrollWidget.previousLine ⟨some v, max, 0⟩ =
        (⟨some v, max, 0⟩, some (Error "at top"))) ∧
    (getLine (some v) = max - 1 →
      ScrollWidget.nextLine ⟨some v, max, max - 1⟩ =
        (⟨some v, max, max - 1⟩, some (Error "at bottom"))) := by
  constructor
  · intro hline
    unfold ScrollWidget.previousLine
    dsimp only
    have hml : moveLines (some v) 0 max (-1) = (some v, some (Error "at top")) := by
      unfold moveLines
      dsimp only
      rw [if_pos (by omega : (-1:Int) < 0), if_pos (by omega : (0:Int) ≤ 0)]
    rw [hml]
    dsimp only
    rw [hline]
  · intro hline
    unfold ScrollWidget.nextLine
    dsimp only
    have hml : moveLines (some v) (max - 1) max 1 = (some v, some (Error "at bottom")) := by
      unfold moveLines
      dsimp only
      rw [if_neg (by omega : ¬ (1:Int) < 0)]
      rw [if_pos (by omega : max - 1 + 1 ≥ max)]
    rw [hml]
    dsimp only
    rw [hline]

theorem boundary_moves_fail_witness :
    ScrollWidget.previousLine ⟨some ⟨0, 0, 0, 0, 10, 5⟩, 6, 0⟩ =
      (⟨some ⟨0, 0, 0, 0, 10, 5⟩, 6, 0⟩, some (Error "at top")) :=
  (boundary_moves_fail ⟨0, 0, 0, 0, 10, 5⟩ 6 (by decide)).1 (by decide)

theorem applyMove_up_exact (v : View) (max delta : Int)
    (hox : 0 ≤ v.ox) (hcx : 0 ≤ v.cx) (hcxs : v.cx < v.sx)
    (h1 : 0 ≤ v.oy) (h2 : 0 ≤ v.cy) (h3 : v.cy < v.sy ∨ v.cy = 0)
    (hneg : delta < 0) (ht : 0 ≤ v.oy + v.cy + delta) :
    ∃ v', applyMove v max delta = (some v', none) ∧
      v'.oy + v'.cy = v.oy + v.cy + delta := by
  unfold applyMove
  rw [if_pos (by omega : delta ≠ 0)]
  dsimp only
  rw [if_pos hneg]
  obtain ⟨hm1, hm2, hm3⟩ := maxInt_spec delta (-v.oy)
  by_cases hcd : v.cy + delta < 0
  · rw [if_pos hcd]
    rcases setOrigin_cases v v.ox (v.oy + maxInt delta (-v.oy)) with ⟨_, habs⟩ | ⟨heq, _, _⟩
    · omega
    · rw [heq]
      dsimp only
      by_cases hz : delta - maxInt delta (-v.oy) = 0
      · refine ⟨{ v with ox := v.ox, oy := v.oy + maxInt delta (-v.oy) }, ?_, ?_⟩
        · unfold finishCursor
          rw [if_neg (by omega : ¬ (delta - maxInt delta (-v.oy) ≠ 0))]
        · dsimp only
          omega
      · have hod : maxInt delta (-v.oy) = -v.oy := by
          rcases hm1 with h | h <;> omega
        unfold finishCursor
        rw [if_pos (by omega : delta - maxInt delta (-v.oy) ≠ 0)]
        unfold View.setCursor
        dsimp only
        rw [if_neg (by rcases h3 with h3 | h3 <;> omega)]
        refine ⟨_, rfl, ?_⟩
        dsimp only
        omega
  · rw [if_neg hcd]
    unfold finishCursor
    rw [if_pos (by omega : delta ≠ 0)]
    unfold View.setCursor
    rw [if_neg (by rcases h3 with h3 | h3 <;> omega)]
    refine ⟨_, rfl, ?_⟩
    dsimp only
    omega

/-- C5 counterexample: the claim quantifies over every `ScrollWidget`,
but a widget with no bound view does not end at `max(newMax - 1, 0)`:
`SetCurrent` reads the position back from the absent view, which reports
0.  Here `SetMax 5` on a viewless widget with `Current() = 7` yields 0,
not `max(5 - 1, 0) = 4`. -/
theorem setMax_clamp_not_universal :
    (ScrollWidget.setMax ⟨none, 10, 7⟩ 5).Current ≠ maxInt (5 - 1) 0 := by
  decide

/-- C5 (amended): for every `ScrollWidget` bound to a well-formed view
that agrees with `Current()` (nonnegative origin and cursor, cursor
inside the window), `SetMax(newMax)` with `newMax ≤ Current()` results in
`Current() = max(newMax - 1, 0)`. -/
theorem setMax_clamps_current (v : View) (max0 newMax : Int)
    (hox : 0 ≤ v.ox) (hcx : 0 ≤ v.cx) (hcxs : v.cx < v.sx)
    (h1 : 0 ≤ v.oy) (h2 : 0 ≤ v.cy) (h3 : v.cy < v.sy ∨ v.cy = 0)
    (hle : newMax ≤ v.oy + v.cy) :
    (ScrollWidget.setMax ⟨some v, max0, v.oy + v.cy⟩ newMax).Current =
      maxInt (newMax - 1) 0 := by
  unfold ScrollWidget.setMax ScrollWidget.clampCurrent
  dsimp only
  rw [if_neg (by omega : ¬ (v.oy + v.cy < 0))]
  by_cases hpos : v.oy + v.cy > 0
  · rw [if_pos ⟨hpos, by omega⟩]
    unfold ScrollWidget.setCurrent
    dsimp only
    unfold moveLines
    dsimp only
    rw [if_pos (by omega : newMax - 1 - (v.oy + v.cy) < 0)]
    rw [if_neg (by omega : ¬ (v.oy + v.cy ≤ 0))]
    by_cases hnm : 1 ≤ newMax
    · rw [if_neg (by omega : ¬ (v.oy + v.cy + (newMax - 1 - (v.oy + v.cy)) < 0))]
      obtain ⟨v', heq, hline⟩ := applyMove_up_exact v newMax (newMax - 1 - (v.oy + v.cy))
        hox hcx hcxs h1 h2 h3 (by omega) (by omega)
      rw [heq]
      dsimp only
      unfold ScrollWidget.Current getLine
      dsimp only
      unfold maxInt
      split <;> omega
    · rw [if_pos (by omega : v.oy + v.cy + (newMax - 1 - (v.oy + v.cy)) < 0)]
      obtain ⟨v', heq, hline⟩ := applyMove_up_exact v newMax (-(v.oy + v.cy))
        hox hcx hcxs h1 h2 h3 (by omega) (by omega)
      rw [heq]
      dsimp only
      unfold ScrollWidget.Current getLine
      dsimp only
      unfold maxInt
      split <;> omega
  · rw [if_neg (by omega : ¬ (v.oy + v.cy > 0 ∧ v.oy + v.cy ≥ newMax))]
    unfold ScrollWidget.Current
    dsimp only
    unfold maxInt
    split <;> omega

theorem setMax_clamps_current_witness :
    (ScrollWidget.setMax ⟨some ⟨0, 2, 0, 1, 10, 5⟩, 9, 3⟩ 2).Current =
      maxInt (2 - 1) 0 :=
  setMax_clamps_current ⟨0, 2, 0, 1, 10, 5⟩ 9 2 (by decide) (by decide) (by decide)
    (by decide) (by decide) (Or.inl (by decide)) (by decide)

/-- C6: in `PromptEditor`, Backspace deletes the preceding character when
the cursor column is strictly greater than `offset`, and otherwise
cancels the session, firing the completion callback with
`committed = false`; in particular, opening with leading text "Search: "
and empty content, typing "abc" and pressing Backspace four times fires
the callback with `(false, "")`. -/
theorem backspace_deletes_or_cancels :
    (∀ (offset : Nat) (v : EditView) (e : KeyEvent),
      (e.key = XKey.backspace ∨ e.key = XKey.backspace2) → e.ch = '\x00' →
      offset < v.cx →
        promptEditor offset v e = ⟨v.editDelete true, true, none⟩) ∧
    (∀ (offset : Nat) (v : EditView) (e : KeyEvent),
      (e.key = XKey.backspace ∨ e.key = XKey.backspace2) → e.ch = '\x00' →
      v.cx ≤ offset →
        ∃ text, promptEditor offset v e = ⟨v, true, some (false, text)⟩) ∧
    runPromptEvents 8 ⟨['S', 'e', 'a', 'r', 'c', 'h', ':', ' '], 8⟩
        [charEvent 'a', charEvent 'b', charEvent 'c', keyEvent XKey.backspace,
         keyEvent XKey.backspace, keyEvent XKey.backspace, keyEvent XKey.backspace] =
      (⟨['S', 'e', 'a', 'r', 'c', 'h', ':', ' '], 8⟩, some (false, [])) := by
  refine ⟨?_, ?_, by decide⟩
  · rintro offset v ⟨k, ch, mod⟩ hk hch hgt
    dsimp only at hk hch
    subst hch
    rcases hk with hk | hk <;> subst hk <;> simp [promptEditor, hgt]
  · rintro offset v ⟨k, ch, mod⟩ hk hch hle
    dsimp only at hk hch
    subst hch
    have hng : ¬ (offset < v.cx) := by omega
    rcases hk with hk | hk <;> subst hk <;> simp [promptEditor, hng]

theorem backspace_deletes_or_cancels_witness :
    promptEditor 2 ⟨['a', 'b', 'c', 'd'], 4⟩ (keyEvent XKey.backspace) =
      ⟨EditView.editDelete ⟨['a', 'b', 'c', 'd'], 4⟩ true, true, none⟩ :=
  backspace_deletes_or_cancels.1 2 ⟨['a', 'b', 'c', 'd'], 4⟩ (keyEvent XKey.backspace)
    (Or.inl rfl) rfl (by decide)

/-- C7 counterexample: the Insert key matches none of the enumerated
rules (insert, arrow-up and arrow-down cases exist in the code but with
commented-out bodies), yet the editor still reports it as consumed. -/
theorem promptEditor_insert_consumed :
    (promptEditor 0 ⟨[], 0⟩ (keyEvent XKey.insert)).consumed ≠ false := by
  decide

/-- C7 (amended): Insert, ArrowDown and ArrowUp are consumed with no
effect and no callback; every key event matched by no case at all — any
other key code with no rune, or any rune event with a nonzero modifier —
is reported not consumed, with the view unchanged and no callback. -/
theorem promptEditor_other_keys (offset : Nat) (v : EditView) :
    (∀ (n : Nat) (ch : Char) (mod : Nat), ch = '\x00' ∨ mod ≠ 0 →
      promptEditor offset v ⟨XKey.other n, ch, mod⟩ = ⟨v, false, none⟩) ∧
    promptEditor offset v (keyEvent XKey.insert) = ⟨v, true, none⟩ ∧
    promptEditor offset v (keyEvent XKey.arrowDown) = ⟨v, true, none⟩ ∧
    promptEditor offset v (keyEvent XKey.arrowUp) = ⟨v, true, none⟩ := by
  refine ⟨?_, by simp [promptEditor, keyEvent], by simp [promptEditor, keyEvent],
    by simp [promptEditor, keyEvent]⟩
  rintro n ch mod (h | h)
  · subst h
    simp [promptEditor]
  · simp [promptEditor, h]

theorem promptEditor_other_keys_witness :
    promptEditor 2 ⟨['a'], 1⟩ ⟨XKey.other 5, '\x00', 0⟩ = ⟨⟨['a'], 1⟩, false, none⟩ :=
  (promptEditor_other_keys 2 ⟨['a'], 1⟩).1 5 '\x00' 0 (Or.inl rfl)

/-- C8: `Pad` strips CSI escape sequences only for measuring; it never
truncates (the result is always the original string plus some spaces),
appends exactly `n - width` spaces when the stripped width is below `n`,
returns the string unchanged otherwise, and on "red" followed by the
reset escape sequence with target width 5 yields the original string
plus two spaces, escape sequence preserved. -/
theorem Pad_strips_only_for_measuring :
    Pad ['r', 'e', 'd', '\x1b', '[', '0', 'm'] 5 =
      ['r', 'e', 'd', '\x1b', '[', '0', 'm', ' ', ' '] ∧
    (∀ (s : List Char) (n : Int), ∃ k, Pad s n = s ++ List.replicate k ' ') ∧
    (∀ (s : List Char) (n : Int), (StringWidth (stripEscapeSeq s) : Int) < n →
      Pad s n = s ++ List.replicate (n - StringWidth (stripEscapeSeq s)).toNat ' ') ∧
    (∀ (s : List Char) (n : Int), n ≤ (StringWidth (stripEscapeSeq s) : Int) →
      Pad s n = s) := by
  refine ⟨by decide, ?_, ?_, ?_⟩
  · intro s n
    unfold Pad
    dsimp only
    by_cases h : (StringWidth (stripEscapeSeq s) : Int) < n
    · rw [if_pos h]
      exact ⟨_, rfl⟩
    · rw [if_neg h]
      exact ⟨0, by simp⟩
  · intro s n h
    unfold Pad
    dsimp only
    rw [if_pos h]
  · intro s n h
    unfold Pad
    dsimp only
    rw [if_neg (by omega)]

theorem Pad_strips_only_for_measuring_witness :
    Pad ['h', 'i'] 4 =
      ['h', 'i'] ++ List.replicate ((4 - StringWidth (stripEscapeSeq ['h', 'i']) : Int)).toNat ' ' :=
  Pad_strips_only_for_measuring.2.2.1 ['h', 'i'] 4 (by decide)

/-- C9: `HandleAction` maps exactly the four action names to the
corresponding step operations; every other action string yields
`UnknownAction`, an action error carrying no underlying cause — unlike a
movement failure, which carries one — and `ListWidget.HandleAction`
delegates to the embedded `ScrollWidget`. -/
theorem handleAction_dispatch :
    (∀ w : ScrollWidget, w.handleAction ActionNextLine = w.nextLine) ∧
    (∀ w : ScrollWidget, w.handleAction ActionNextPage = w.nextPage) ∧
    (∀ w : ScrollWidget, w.handleAction ActionPreviousLine = w.previousLine) ∧
    (∀ w : ScrollWidget, w.handleAction ActionPreviousPage = w.previousPage) ∧
    (∀ (w : ScrollWidget) (a : String),
      a ≠ ActionNextLine → a ≠ ActionNextPage → a ≠ ActionPreviousLine →
      a ≠ ActionPreviousPage → w.handleAction a = (w, some UnknownAction)) ∧
    (∀ (lw : ListWidget) (a : String),
      lw.handleAction a =
        ({ lw with base := (lw.base.handleAction a).1 }, (lw.base.handleAction a).2)) ∧
    UnknownAction.cause = none ∧
    (∀ msg, (Error msg).cause = some msg) := by
  refine ⟨fun w => ?_, fun w => ?_, fun w => ?_, fun w => ?_, ?_, ?_, rfl, fun msg => rfl⟩
  · unfold ScrollWidget.handleAction
    rw [if_pos rfl]
  · unfold ScrollWidget.handleAction
    rw [if_neg (by decide), if_pos rfl]
  · unfold ScrollWidget.handleAction
    rw [if_neg (by decide), if_neg (by decide), if_pos rfl]
  · unfold ScrollWidget.handleAction
    rw [if_neg (by decide), if_neg (by decide), if_neg (by decide), if_pos rfl]
  · intro w a h1 h2 h3 h4
    unfold ScrollWidget.handleAction
    rw [if_neg h1, if_neg h2, if_neg h3, if_neg h4]
  · intro lw a
    unfold ListWidget.handleAction
    rcases hp : lw.base.handleAction a with ⟨b, e⟩
    dsimp only

theorem handleAction_dispatch_witness :
    ScrollWidget.handleAction ⟨none, 0, 0⟩ "bogus" = (⟨none, 0, 0⟩, some UnknownAction) :=
  handleAction_dispatch.2.2.2.2.1 ⟨none, 0, 0⟩ "bogus" (by decide) (by decide) (by decide)
    (by decide)

/-- C10 counterexample: `NextPage` on a viewless widget with nonzero
`Current()` returns nil but leaves `Current()` at its old value, not 0,
contradicting the claim that every movement call leaves `Current() = 0`. -/
theorem nilView_nextPage_keeps_current :
    (ScrollWidget.nextPage ⟨none, 10, 5⟩).1.Current ≠ 0 := by
  decide

/-- C10 (amended): with no view bound every movement call returns nil
(success); `NextLine`, `PreviousLine` and `SetCurrent` additionally reset
`Current()` to 0 (the position is read back from the absent view, which
reports 0), while `NextPage` and `PreviousPage` return with the widget
untouched, keeping any nonzero `Current()`. -/
theorem nilView_moves (w : ScrollWidget) (h : w.view = none) :
    w.nextLine = ({ w with current := 0 }, none) ∧
    w.previousLine = ({ w with current := 0 }, none) ∧
    (∀ idx, w.setCurrent idx = ({ w with current := 0 }, none)) ∧
    w.nextPage = (w, none) ∧
    w.previousPage = (w, none) := by
  obtain ⟨view, max, current⟩ := w
  dsimp only at h
  subst h
  exact ⟨rfl, rfl, fun idx => rfl, rfl, rfl⟩

theorem nilView_moves_witness :
    ScrollWidget.nextLine ⟨none, 3, 2⟩ = (⟨none, 3, 0⟩, none) :=
  (nilView_moves ⟨none, 3, 2⟩ rfl).1
